import Mathlib

/-!
# Verification of the HIP3 market collector and vault query service

This file gives a shallow embedding in Lean 4 of the two Python scripts of the
repository (`hip3.py`, the market snapshot collector, and `web_query.py`, the
vault query web service), together with theorems settling the specification
claims about them.

Machine floats of the source are modelled as rationals (`ℚ`); Python `None` /
SQL `NULL` as `Option`; the SQLite store as a `List` of row structures.
-/

/-! ## Part 1: embedding of `hip3.py` -/

/-- A Python value as it can appear in a parsed JSON asset-context field.
`pnone` is Python `None`, `pstr` a string, `pnum` a JSON number, `pother`
any other truthy value that `float()` cannot convert (list, dict, ...). -/
inductive PyVal where
  | pnone : PyVal
  | pstr : String → PyVal
  | pnum : ℚ → PyVal
  | pother : PyVal
deriving DecidableEq, Repr

/-- Python truthiness of a `PyVal`: `None`, `''` and `0` are falsy. -/
def truthy : PyVal → Bool
  | PyVal.pnone => false
  | PyVal.pstr s => !s.isEmpty
  | PyVal.pnum q => q != 0
  | PyVal.pother => true

/-- Numeric value of a list of decimal digit characters. -/
def digitsVal (l : List Char) : ℕ :=
  l.foldl (fun a c => a * 10 + (c.toNat - 48)) 0

/-- All characters are decimal digits. -/
def allDigits (l : List Char) : Bool := l.all Char.isDigit

/-- Parse an unsigned decimal literal (digit string with an optional single
decimal point), as accepted by Python `float()` restricted to the plain
decimal forms the market API uses (no exponent, `inf`, `nan` or padding). -/
def parseUnsigned (l : List Char) : Option ℚ :=
  let intPart := l.takeWhile (fun c => c != '.')
  let rest := l.dropWhile (fun c => c != '.')
  match rest with
  | [] =>
    if intPart.isEmpty || !allDigits intPart then none
    else some (digitsVal intPart : ℚ)
  | _ :: fracPart =>
    if fracPart.any (fun c => c == '.') then none
    else if intPart.isEmpty && fracPart.isEmpty then none
    else if !allDigits intPart || !allDigits fracPart then none
    else some ((digitsVal intPart : ℚ) + (digitsVal fracPart : ℚ) / ((10 : ℚ) ^ fracPart.length))

/-- Parse a signed decimal literal; `none` models `float()` raising `ValueError`. -/
def parseFloat (s : String) : Option ℚ :=
  match s.data with
  | '-' :: rest => (parseUnsigned rest).map (fun q => -q)
  | '+' :: rest => parseUnsigned rest
  | l => parseUnsigned l

/-- Python `float(v)`: numbers convert to themselves, strings are parsed
(`ValueError` on a non-numeric string), anything else raises `TypeError`.
`Except.error` models the raised exception. -/
def pyFloat : PyVal → Except Unit ℚ
  | PyVal.pstr s =>
    match parseFloat s with
    | some q => Except.ok q
    | none => Except.error ()
  | PyVal.pnum q => Except.ok q
  | PyVal.pnone => Except.error ()
  | PyVal.pother => Except.error ()

deriving instance DecidableEq for Except

/-- The source idiom `float(x) if x else 0`: a falsy field becomes `0`
without calling `float`; a truthy field is converted (and may raise). -/
def coerceNum (v : PyVal) : Except Unit ℚ :=
  if truthy v then pyFloat v else Except.ok 0

/-- One market descriptor from `metadata.universe`; `name` is the `"name"`
key, absent when the key is missing (`.get("name", "N/A")` in the source). -/
structure Descriptor where
  name : Option String
deriving DecidableEq, Repr

/-- The `"name"` field with the source's default. -/
def descName (d : Descriptor) : String := d.name.getD "N/A"

/-- One asset-context object; each field is `none` when the key is absent
(the source supplies the default string `'0'` through `.get`). -/
structure Ctx where
  markPx : Option PyVal
  dayNtlVlm : Option PyVal
  openInterest : Option PyVal
  funding : Option PyVal
deriving DecidableEq, Repr

/-- `market_data.get(key, '0')`: a missing key yields the string `'0'`. -/
def getField (f : Option PyVal) : PyVal := f.getD (PyVal.pstr "0")

/-- One retained market row, as appended to `active_markets` in the source. -/
structure Market where
  dex : String
  quote : String
  market : String
  markPx : ℚ
  dayNtlVlm : ℚ
  openInterestUSD : ℚ
  funding : ℚ
deriving DecidableEq, Repr

/-- The body of the per-market loop of `get_hip3_markets`: convert the four
numeric fields (any raised `ValueError`/`TypeError` discards the row), compute
`oi_usd = oi_contracts * mark_px`, and retain the row only if `volume > 0`. -/
def processRow (dex quote name : String) (c : Ctx) : Option Market :=
  match coerceNum (getField c.markPx), coerceNum (getField c.openInterest),
        coerceNum (getField c.dayNtlVlm), coerceNum (getField c.funding) with
  | Except.ok mp, Except.ok oi, Except.ok dv, Except.ok f =>
    if 0 < dv then
      some { dex := dex, quote := quote, market := name,
             markPx := mp, dayNtlVlm := dv, openInterestUSD := oi * mp, funding := f }
    else none
  | _, _, _, _ => none

/-- Process the index-aligned (descriptor, context) pairs of one response. -/
def marketsOfPairs (dex quote : String) (ps : List (Descriptor × Ctx)) : List Market :=
  ps.filterMap (fun p => processRow dex quote (descName p.1) p.2)

/-- Outcome of the HTTP POST for one source. `failure` covers a network
error, a non-2xx status, a JSON decode error and an unexpectedly shaped
body (each raises inside the outer `try` of `get_hip3_markets`). -/
inductive FetchOutcome where
  | ok : List Descriptor → List Ctx → FetchOutcome
  | failure : FetchOutcome
deriving DecidableEq, Repr

/-- `get_hip3_markets`: on any raised error the source contributes `[]`.
When `universe` is longer than `asset_contexts`, the loop raises `IndexError`
at the first missing index, which the outer handler also turns into `[]`. -/
def get_hip3_markets (dex quote : String) (o : FetchOutcome) : List Market :=
  match o with
  | FetchOutcome.failure => []
  | FetchOutcome.ok u cs =>
    if u.length ≤ cs.length then marketsOfPairs dex quote (u.zip cs) else []

/-- One configured dex deployer with its quote currency. -/
structure DexConfig where
  name : String
  quote : String
deriving DecidableEq, Repr

/-- The module-level source configuration of `get_all_hip3_markets_combined`. -/
def dex_configs : List DexConfig :=
  [{ name := "xyz", quote := "USDC" }, { name := "flx", quote := "USDH" },
   { name := "vntl", quote := "USDH" }]

/-- Collection loop of `get_all_hip3_markets_combined`: extend `all_markets`
with each source's contribution in configuration order. The HTTP layer is an
oracle `fetch` giving each source's response outcome. -/
def collectMarkets (fetch : DexConfig → FetchOutcome) (configs : List DexConfig) : List Market :=
  configs.flatMap (fun c => get_hip3_markets c.name c.quote (fetch c))

/-- `all_markets.sort(key=lambda x: -x.dayNtlVlm)`: a stable sort, ascending
in the negated volume, i.e. descending in `dayNtlVlm`; modelled by the stable
`List.insertionSort` with that total preorder. -/
def get_all_hip3_markets_combined (fetch : DexConfig → FetchOutcome)
    (configs : List DexConfig) : List Market :=
  List.insertionSort (fun a b => b.dayNtlVlm ≤ a.dayNtlVlm) (collectMarkets fetch configs)

/-- `sum(m.dayNtlVlm for m in ms)`. -/
def total_volume (ms : List Market) : ℚ := (ms.map Market.dayNtlVlm).sum

/-- `sum(m.openInterestUSD for m in ms)`. -/
def total_oi (ms : List Market) : ℚ := (ms.map Market.openInterestUSD).sum

/-- `[m for m in all_markets if m.dex == dex_name]` of the per-dex summary. -/
def dexMarkets (ms : List Market) (d : String) : List Market :=
  ms.filter (fun m => m.dex == d)

/-- One row of the `market_data` SQLite table. -/
structure DbRow where
  timestamp : ℤ
  dex : String
  quote_asset : String
  market : String
  mark_price : ℚ
  volume_24h : ℚ
  open_interest : ℚ
  funding_rate : ℚ
deriving DecidableEq, Repr

/-- The row a `Market` is stored as, with the batch timestamp. -/
def toDbRow (ts : ℤ) (m : Market) : DbRow :=
  { timestamp := ts, dex := m.dex, quote_asset := m.quote, market := m.market,
    mark_price := m.markPx, volume_24h := m.dayNtlVlm,
    open_interest := m.openInterestUSD, funding_rate := m.funding }

/-- SQLite cursor state inside `insert_market_data`: the rows staged in the
open transaction and `cursor.rowcount`, which is `-1` before any statement
has executed and is set to the affected-row count (`1` for a single-row
`INSERT`) by each `execute`. -/
structure CursorState where
  pending : List DbRow
  rowcount : ℤ
deriving DecidableEq, Repr

/-- One `cursor.execute(INSERT ...)` of the loop. -/
def executeInsert (cur : CursorState) (ts : ℤ) (m : Market) : CursorState :=
  { pending := cur.pending ++ [toDbRow ts m], rowcount := 1 }

/-- `insert_market_data`: one shared `datetime.now()` timestamp for the whole
batch, one `INSERT` per market, a single `commit`, and the function returns
`cursor.rowcount` as read after the loop. Result: the committed table and
the returned value. -/
def insert_market_data (table : List DbRow) (ts : ℤ) (markets : List Market) :
    List DbRow × ℤ :=
  let cur := markets.foldl (fun c m => executeInsert c ts m)
    { pending := [], rowcount := -1 }
  (table ++ cur.pending, cur.rowcount)

/-! ## Part 2: embedding of `web_query.py` -/

/-- Round a rational to the nearest integer, ties to even, as Python's
fixed-point string formatting does. -/
def roundHalfEven (q : ℚ) : ℤ :=
  let f : ℤ := Int.fdiv q.num (q.den : ℤ)
  let r : ℚ := q - (f : ℚ)
  if r < 1 / 2 then f
  else if 1 / 2 < r then f + 1
  else if f % 2 = 0 then f else f + 1

/-- Left-pad a two-digit fractional part. -/
def pad2 (n : ℕ) : String := if n < 10 then "0" ++ toString n else toString n

/-- Python `f"{q:.2f}"`: fixed-point with two decimals. -/
def fixed2 (q : ℚ) : String :=
  let c : ℤ := roundHalfEven (q * 100)
  if c < 0 then
    "-" ++ toString ((-c).toNat / 100) ++ "." ++ pad2 ((-c).toNat % 100)
  else
    toString (c.toNat / 100) ++ "." ++ pad2 (c.toNat % 100)

/-- `format_money` of `web_query.py`: `None` gives the sentinel `"N/A"`,
otherwise `$` with two decimals and a `B`/`M`/`K` suffix at the
`1_000_000_000`/`1_000_000`/`1_000` thresholds. -/
def format_money (amount : Option ℚ) : String :=
  match amount with
  | none => "N/A"
  | some a =>
    if 1000000000 ≤ a then "$" ++ fixed2 (a / 1000000000) ++ "B"
    else if 1000000 ≤ a then "$" ++ fixed2 (a / 1000000) ++ "M"
    else if 1000 ≤ a then "$" ++ fixed2 (a / 1000) ++ "K"
    else "$" ++ fixed2 a

/-- `format_apy` of `web_query.py`. -/
def format_apy (apy : Option ℚ) : String :=
  match apy with
  | none => "N/A"
  | some a => fixed2 a ++ "%"

/-- One stored row of the `vault_snapshots` table. `id` is the surrogate
`INTEGER PRIMARY KEY`; nullable numeric columns are `Option ℚ`. -/
structure VaultRow where
  id : ℕ
  timestamp : ℤ
  platform : String
  vault_name : String
  vault_type : String
  total_deposits : Option ℚ
  deposit_amount : Option ℚ
  deposit_token : Option String
  apy_percentage : Option ℚ
deriving DecidableEq, Repr

/-- The `days_back` window condition
`datetime(timestamp) >= datetime('now', '-N days')`, with the cutoff instant
`now − N days` precomputed; `none` models an absent `days_back`. -/
def inWindow (cutoff : Option ℤ) (r : VaultRow) : Bool :=
  match cutoff with
  | none => true
  | some c => c ≤ r.timestamp

/-- The rows satisfying the window condition. -/
def windowRows (db : List VaultRow) (cutoff : Option ℤ) : List VaultRow :=
  db.filter (inWindow cutoff)

/-- `platform = p AND vault_name = v`. -/
def sameVault (p v : String) (r : VaultRow) : Bool :=
  r.platform == p && r.vault_name == v

/-- `MAX` over a list of ids, `none` on the empty list (SQL `MAX` is `NULL`
over an empty group, but grouped queries only emit nonempty groups). -/
def listMax : List ℕ → Option ℕ
  | [] => none
  | x :: xs =>
    match listMax xs with
    | none => some x
    | some m => some (max x m)

/-- `SELECT MAX(id) FROM vault_snapshots WHERE {window} GROUP BY platform,
vault_name`, read at one group key. -/
def groupMaxId (db : List VaultRow) (cutoff : Option ℤ) (p v : String) : Option ℕ :=
  listMax (((windowRows db cutoff).filter (sameVault p v)).map VaultRow.id)

/-- The `latest_snapshots` CTE: the stored rows whose `id` is in the set of
per-vault maximal ids of in-window rows. -/
def latest_snapshots (db : List VaultRow) (cutoff : Option ℤ) : List VaultRow :=
  db.filter (fun r =>
    (windowRows db cutoff).any (fun w =>
      groupMaxId db cutoff w.platform w.vault_name == some r.id))

/-- The non-`NULL` `apy_percentage` values of the in-window rows of one
vault: the multiset SQL `AVG` aggregates over. -/
def vaultSamples (db : List VaultRow) (cutoff : Option ℤ) (p v : String) : List ℚ :=
  ((windowRows db cutoff).filter (sameVault p v)).filterMap VaultRow.apy_percentage

/-- The `avg_apy` CTE read at one group key: SQL `AVG(apy_percentage)`
ignores `NULL`s and is `NULL` when no non-`NULL` value exists; a key with no
in-window rows has no group row, which the `LEFT JOIN` also turns into
`NULL`. -/
def average_apy (db : List VaultRow) (cutoff : Option ℤ) (p v : String) : Option ℚ :=
  let vals := vaultSamples db cutoff p v
  if vals.isEmpty then none else some (vals.sum / (vals.length : ℚ))

/-- One row of the joined `SELECT` of `/api/query`. -/
structure QueryRow where
  platform : String
  vault_name : String
  vault_type : String
  total_deposits : Option ℚ
  deposit_amount : Option ℚ
  deposit_token : Option String
  latest_apy : Option ℚ
  average_apy : Option ℚ
  timestamp : ℤ
deriving DecidableEq, Repr

/-- The `LEFT JOIN` of a `latest_snapshots` row with its `avg_apy` group. -/
def joinRow (db : List VaultRow) (cutoff : Option ℤ) (r : VaultRow) : QueryRow :=
  { platform := r.platform, vault_name := r.vault_name, vault_type := r.vault_type,
    total_deposits := r.total_deposits, deposit_amount := r.deposit_amount,
    deposit_token := r.deposit_token, latest_apy := r.apy_percentage,
    average_apy := average_apy db cutoff r.platform r.vault_name,
    timestamp := r.timestamp }

/-- The recognized `sort_by` values; `name` is the catch-all `else` branch. -/
inductive SortBy where
  | apy : SortBy
  | avg_apy : SortBy
  | deposits : SortBy
  | name : SortBy
deriving DecidableEq, Repr

/-- The `sort_order` values. -/
inductive SortOrder where
  | asc : SortOrder
  | desc : SortOrder
deriving DecidableEq, Repr

/-- The filter options of `/api/query`. `none` for an option models both an
absent key and the empty-string value the endpoint treats identically;
`cutoff` is the precomputed window cutoff of `days_back`. -/
structure QueryParams where
  platforms : List String
  vault_type : Option String
  min_apy : Option ℚ
  max_apy : Option ℚ
  min_deposits : Option ℚ
  cutoff : Option ℤ
  sort_by : SortBy
  sort_order : SortOrder

/-- SQL `x >= b` on a nullable column: `NULL` compares to nothing. -/
def optGeB (x : Option ℚ) (b : ℚ) : Bool :=
  match x with
  | none => false
  | some a => b ≤ a

/-- SQL `x <= b` on a nullable column. -/
def optLeB (x : Option ℚ) (b : ℚ) : Bool :=
  match x with
  | none => false
  | some a => a ≤ b

/-- The optional `WHERE` conditions appended by `query_vaults`. -/
def keepRow (ps : QueryParams) (q : QueryRow) : Bool :=
  (ps.platforms.isEmpty || ps.platforms.contains q.platform)
  && (match ps.vault_type with
      | none => true
      | some t => q.vault_type == t)
  && (match ps.min_apy with
      | none => true
      | some b => optGeB q.latest_apy b)
  && (match ps.max_apy with
      | none => true
      | some b => optLeB q.latest_apy b)
  && (match ps.min_deposits with
      | none => true
      | some b => optGeB q.deposit_amount b)

/-- The sort key column for the three numeric `ORDER BY` branches
(`latest_apy`, `average_apy`, `deposit_amount`); the `name` branch orders by
the non-nullable `vault_name` and is excluded by its callers. -/
def numKey : SortBy → QueryRow → Option ℚ
  | SortBy.apy, q => q.latest_apy
  | SortBy.avg_apy, q => q.average_apy
  | SortBy.deposits, q => q.deposit_amount
  | SortBy.name, _ => none

/-- SQLite column comparison on a nullable numeric column: `NULL` sorts
below every value. -/
def optQLe (x y : Option ℚ) : Bool :=
  match x, y with
  | none, _ => true
  | some _, none => false
  | some a, some b => a ≤ b

/-- The `ORDER BY` comparison of `query_vaults`: ascending or descending in
the requested numeric key, and ascending `vault_name` (the direction is
ignored) in the `else` branch. -/
def rowLeB (sb : SortBy) (so : SortOrder) (a b : QueryRow) : Bool :=
  match sb with
  | SortBy.name => a.vault_name ≤ b.vault_name
  | _ =>
    match so with
    | SortOrder.asc => optQLe (numKey sb a) (numKey sb b)
    | SortOrder.desc => optQLe (numKey sb b) (numKey sb a)

/-- `/api/query`: latest snapshot per vault in the window, left-joined with
the window average APY, filtered by the optional conditions and ordered by
the requested key. -/
def query_vaults (db : List VaultRow) (ps : QueryParams) : List QueryRow :=
  List.insertionSort (fun a b => rowLeB ps.sort_by ps.sort_order a b = true)
    (((latest_snapshots db ps.cutoff).map (joinRow db ps.cutoff)).filter (keepRow ps))

/-- One entry of the JSON `vaults` array: every money/percentage field
appears both raw and formatted. -/
structure VaultJson where
  platform : String
  vault_name : String
  vault_type : String
  total_deposits : Option ℚ
  deposit_amount : Option ℚ
  deposit_amount_formatted : String
  deposit_token : Option String
  latest_apy : Option ℚ
  latest_apy_formatted : String
  average_apy : Option ℚ
  average_apy_formatted : String
  timestamp : ℤ
deriving DecidableEq, Repr

/-- The response-row construction of `query_vaults`. -/
def toVaultJson (q : QueryRow) : VaultJson :=
  { platform := q.platform, vault_name := q.vault_name, vault_type := q.vault_type,
    total_deposits := q.total_deposits, deposit_amount := q.deposit_amount,
    deposit_amount_formatted := format_money q.deposit_amount,
    deposit_token := q.deposit_token, latest_apy := q.latest_apy,
    latest_apy_formatted := format_apy q.latest_apy,
    average_apy := q.average_apy,
    average_apy_formatted := format_apy q.average_apy,
    timestamp := q.timestamp }

/-- One row of the `/api/stats` joined `SELECT`. -/
structure StatsRow where
  platform : String
  vault_type : String
  deposit_amount : Option ℚ
  latest_apy : Option ℚ
  average_apy : Option ℚ
deriving DecidableEq, Repr

/-- The joined row of the stats query for one `latest_snapshots` row. -/
def toStatsRow (db : List VaultRow) (cutoff : Option ℤ) (r : VaultRow) : StatsRow :=
  { platform := r.platform, vault_type := r.vault_type,
    deposit_amount := r.deposit_amount, latest_apy := r.apy_percentage,
    average_apy := average_apy db cutoff r.platform r.vault_name }

/-- The filter options of `/api/stats`. -/
structure StatsParams where
  platforms : List String
  vault_type : Option String
  cutoff : Option ℤ
  min_deposits : Option ℚ

/-- The optional `WHERE` conditions of the stats query. -/
def statsKeep (ps : StatsParams) (r : StatsRow) : Bool :=
  (ps.platforms.isEmpty || ps.platforms.contains r.platform)
  && (match ps.vault_type with
      | none => true
      | some t => r.vault_type == t)
  && (match ps.min_deposits with
      | none => true
      | some b => optGeB r.deposit_amount b)

/-- The `results` row set the statistics of `/api/stats` are computed over. -/
def statsResults (db : List VaultRow) (ps : StatsParams) : List StatsRow :=
  ((latest_snapshots db ps.cutoff).map (toStatsRow db ps.cutoff)).filter (statsKeep ps)

/-- `sum(l) / len(l) if l else 0`. -/
def meanOr0 (l : List ℚ) : ℚ := if l.isEmpty then 0 else l.sum / (l.length : ℚ)

/-- `max(l) if l else 0`. -/
def maxOr0 (l : List ℚ) : ℚ :=
  match l with
  | [] => 0
  | x :: xs => xs.foldl max x

/-- `min(l) if l else 0`. -/
def minOr0 (l : List ℚ) : ℚ :=
  match l with
  | [] => 0
  | x :: xs => xs.foldl min x

/-- The `is not None` comprehensions of the overall stats: the known
(non-`NULL`) values of one column, a known `0` included. -/
def knownVals (f : StatsRow → Option ℚ) (l : List StatsRow) : List ℚ :=
  l.filterMap f

/-- The truthiness comprehensions of the per-group stats
(`[r[k] for r in g if r[k]]`): a value is kept only when it is non-`NULL`
and nonzero. -/
def truthyVals (f : StatsRow → Option ℚ) (l : List StatsRow) : List ℚ :=
  l.filterMap (fun r =>
    match f r with
    | none => none
    | some q => if q = 0 then none else some q)

/-- The `stats` dictionary of `/api/stats` (raw numeric fields). -/
structure OverallStats where
  total_vaults : ℕ
  avg_latest_apy : ℚ
  avg_period_apy : ℚ
  max_apy : ℚ
  min_apy : ℚ
  total_tvl : ℚ
  avg_tvl : ℚ
deriving DecidableEq, Repr

/-- The overall statistics block of `get_stats`. -/
def overallStats (results : List StatsRow) : OverallStats :=
  { total_vaults := results.length,
    avg_latest_apy := meanOr0 (knownVals StatsRow.latest_apy results),
    avg_period_apy := meanOr0 (knownVals StatsRow.average_apy results),
    max_apy := maxOr0 (knownVals StatsRow.latest_apy results),
    min_apy := minOr0 (knownVals StatsRow.latest_apy results),
    total_tvl := (knownVals StatsRow.deposit_amount results).sum,
    avg_tvl := meanOr0 (knownVals StatsRow.deposit_amount results) }

/-- One per-platform or per-type breakdown entry of `get_stats`. -/
structure GroupStats where
  count : ℕ
  avg_latest_apy : ℚ
  avg_period_apy : ℚ
  total_tvl : ℚ
deriving DecidableEq, Repr

/-- The `platform_stats[p]` entry: note the truthiness comprehensions. -/
def platformStats (results : List StatsRow) (p : String) : GroupStats :=
  let g := results.filter (fun r => r.platform == p)
  { count := g.length,
    avg_latest_apy := meanOr0 (truthyVals StatsRow.latest_apy g),
    avg_period_apy := meanOr0 (truthyVals StatsRow.average_apy g),
    total_tvl := (truthyVals StatsRow.deposit_amount g).sum }

/-- The `type_stats[t]` entry: note the truthiness comprehensions. -/
def typeStats (results : List StatsRow) (t : String) : GroupStats :=
  let g := results.filter (fun r => r.vault_type == t)
  { count := g.length,
    avg_latest_apy := meanOr0 (truthyVals StatsRow.latest_apy g),
    avg_period_apy := meanOr0 (truthyVals StatsRow.average_apy g),
    total_tvl := (truthyVals StatsRow.deposit_amount g).sum }

/-! ## Part 3: concrete inputs used by witnesses and counterexamples -/

/-- A context whose four fields all parse: mark price `2.5`, open interest
`4` contracts, volume `100`, funding key absent. -/
def ctxGood : Ctx :=
  { markPx := some (PyVal.pstr "2.5"), dayNtlVlm := some (PyVal.pstr "100"),
    openInterest := some (PyVal.pstr "4"), funding := none }

/-- A context whose mark-price field is the truthy non-numeric string
`"abc"`, with a positive parsed volume. -/
def ctxBadPx : Ctx :=
  { markPx := some (PyVal.pstr "abc"), dayNtlVlm := some (PyVal.pstr "100"),
    openInterest := some (PyVal.pstr "2"), funding := some (PyVal.pstr "0") }

/-- A context with JSON numbers, volume `50`. -/
def ctxNum : Ctx :=
  { markPx := some (PyVal.pnum 2), dayNtlVlm := some (PyVal.pnum 50),
    openInterest := none, funding := some (PyVal.pnum 0) }

/-- A context with zero 24h volume. -/
def ctxZeroVol : Ctx :=
  { markPx := some (PyVal.pstr "3"), dayNtlVlm := some (PyVal.pstr "0"),
    openInterest := some (PyVal.pstr "7"), funding := some (PyVal.pstr "0") }

/-- A fetch oracle: the `xyz` source answers with two well-formed markets
(one of zero volume), every other source fails. -/
def exFetch : DexConfig → FetchOutcome := fun c =>
  if c.name = "xyz" then
    FetchOutcome.ok [{ name := some "AAA" }, { name := some "BBB" }] [ctxGood, ctxZeroVol]
  else FetchOutcome.failure

/-- A fetch oracle with two succeeding sources for the combined-report claim. -/
def exFetch2 : DexConfig → FetchOutcome := fun c =>
  if c.name = "xyz" then
    FetchOutcome.ok [{ name := some "AAA" }, { name := some "BBB" }] [ctxGood, ctxNum]
  else if c.name = "flx" then
    FetchOutcome.ok [{ name := some "CCC" }] [ctxNum]
  else FetchOutcome.failure

/-- A two-market batch for the store-insert claim. -/
def exMarkets : List Market :=
  [{ dex := "xyz", quote := "USDC", market := "AAA", markPx := 1, dayNtlVlm := 2,
     openInterestUSD := 3, funding := 0 },
   { dex := "flx", quote := "USDH", market := "BBB", markPx := 1, dayNtlVlm := 5,
     openInterestUSD := 6, funding := 0 }]

/-- A vault store with one vault having three snapshots (one outside the
window, the in-window latest with `NULL` APY) and a second vault with one. -/
def exDb1 : List VaultRow :=
  [{ id := 1, timestamp := 0, platform := "A", vault_name := "v1", vault_type := "lending",
     total_deposits := none, deposit_amount := some 100, deposit_token := some "USDC",
     apy_percentage := some 5 },
   { id := 2, timestamp := 20, platform := "A", vault_name := "v1", vault_type := "lending",
     total_deposits := none, deposit_amount := some 200, deposit_token := some "USDC",
     apy_percentage := some 7 },
   { id := 3, timestamp := 25, platform := "A", vault_name := "v1", vault_type := "lending",
     total_deposits := none, deposit_amount := some 300, deposit_token := some "USDC",
     apy_percentage := none },
   { id := 4, timestamp := 30, platform := "B", vault_name := "v2", vault_type := "farm",
     total_deposits := none, deposit_amount := some 50, deposit_token := none,
     apy_percentage := some 3 }]

/-- Query options: window cutoff `10`, no filters, sort by latest APY descending. -/
def exPs1 : QueryParams :=
  { platforms := [], vault_type := none, min_apy := none, max_apy := none,
    min_deposits := none, cutoff := some 10, sort_by := SortBy.apy,
    sort_order := SortOrder.desc }

/-- A store with one vault of unknown APY and one of known APY. -/
def exDb3 : List VaultRow :=
  [{ id := 1, timestamp := 0, platform := "A", vault_name := "v1", vault_type := "t",
     total_deposits := none, deposit_amount := some 5, deposit_token := none,
     apy_percentage := none },
   { id := 2, timestamp := 0, platform := "A", vault_name := "v2", vault_type := "t",
     total_deposits := none, deposit_amount := some 5, deposit_token := none,
     apy_percentage := some 5 }]

/-- Query options: sort by latest APY ascending, no filters. -/
def exPs3 : QueryParams :=
  { platforms := [], vault_type := none, min_apy := none, max_apy := none,
    min_deposits := none, cutoff := none, sort_by := SortBy.apy,
    sort_order := SortOrder.asc }

/-- A store whose platform `A` has one vault with known latest APY `0` and
one with known latest APY `4`. -/
def exDb6 : List VaultRow :=
  [{ id := 1, timestamp := 0, platform := "A", vault_name := "v1", vault_type := "lending",
     total_deposits := none, deposit_amount := some 10, deposit_token := none,
     apy_percentage := some 0 },
   { id := 2, timestamp := 0, platform := "A", vault_name := "v2", vault_type := "lending",
     total_deposits := none, deposit_amount := some 10, deposit_token := none,
     apy_percentage := some 4 }]

/-- Stats options: no filters, no window. -/
def exPs6 : StatsParams :=
  { platforms := [], vault_type := none, cutoff := none, min_deposits := none }

/-- Definition following the specification's words for the money formatter
(ResultFormatter): suffix `K`/`M`/`B` at the `1,000`/`1,000,000`/
`1,000,000,000` thresholds, two decimal places, `$` sign first, plain
`$x.xx` below `1,000`, and the sentinel for an unknown amount. Stated
separately from `format_money` (which is translated from the source) so the
two can be compared. -/
def moneySpecFormat : Option ℚ → String
  | none => "N/A"
  | some a =>
    if 1000000000 ≤ a then "$" ++ fixed2 (a / 1000000000) ++ "B"
    else if 1000000 ≤ a then "$" ++ fixed2 (a / 1000000) ++ "M"
    else if 1000 ≤ a then "$" ++ fixed2 (a / 1000) ++ "K"
    else "$" ++ fixed2 a

/-- The expected `/api/query` output row of vault `(A, v1)` of `exDb1`:
latest in-window snapshot is id `3` (`NULL` APY), window average `7`. -/
def exQA : QueryRow :=
  { platform := "A", vault_name := "v1", vault_type := "lending",
    total_deposits := none, deposit_amount := some 300,
    deposit_token := some "USDC", latest_apy := none, average_apy := some 7,
    timestamp := 25 }

/-- The expected `/api/query` output row of vault `(B, v2)` of `exDb1`. -/
def exQB : QueryRow :=
  { platform := "B", vault_name := "v2", vault_type := "farm",
    total_deposits := none, deposit_amount := some 50, deposit_token := none,
    latest_apy := some 3, average_apy := some 3, timestamp := 30 }

/-! ## Part 4: theorems -/

theorem processRow_dex {dex quote name : String} {c : Ctx} {m : Market}
    (h : processRow dex quote name c = some m) : m.dex = dex := by
  unfold processRow at h
  repeat' split at h
  all_goals simp_all
  exact (congrArg Market.dex h).symm

theorem foldl_executeInsert (ts : ℤ) :
    ∀ (ms : List Market) (cur : CursorState),
      ms.foldl (fun c m => executeInsert c ts m) cur
        = { pending := cur.pending ++ ms.map (toDbRow ts),
            rowcount := if ms.isEmpty then cur.rowcount else 1 } := by
  intro ms
  induction ms with
  | nil => intro cur; simp
  | cons m rest ih =>
    intro cur
    rw [List.foldl_cons, ih]
    simp [executeInsert]

/-- C10: for a non-empty batch, `insert_market_data` commits one row per
market, all sharing the batch timestamp, yet returns the last statement's
rowcount `1` — not the batch size once the batch has at least two rows. -/
theorem insert_market_data_spec (table : List DbRow) (ts : ℤ) (markets : List Market)
    (h : markets ≠ []) :
    (insert_market_data table ts markets).1 = table ++ markets.map (toDbRow ts)
    ∧ (∀ r ∈ markets.map (toDbRow ts), r.timestamp = ts)
    ∧ (insert_market_data table ts markets).2 = 1
    ∧ (2 ≤ markets.length → (insert_market_data table ts markets).2 ≠ (markets.length : ℤ)) := by
  have hne : markets.isEmpty = false := by
    cases markets with
    | nil => exact absurd rfl h
    | cons a l => rfl
  unfold insert_market_data
  rw [foldl_executeInsert, hne]
  refine ⟨by simp, ?_, rfl, ?_⟩
  · intro r hr
    rw [List.mem_map] at hr
    obtain ⟨m, _, rfl⟩ := hr
    rfl
  · intro h2 habs
    have : (1 : ℤ) = (markets.length : ℤ) := habs
    omega

/-- Witness for `insert_market_data_spec` at a concrete two-market batch. -/
theorem insert_market_data_spec_witness :
    exMarkets ≠ []
    ∧ ((insert_market_data [] 7 exMarkets).1 = [] ++ exMarkets.map (toDbRow 7)
      ∧ (∀ r ∈ exMarkets.map (toDbRow 7), r.timestamp = 7)
      ∧ (insert_market_data [] 7 exMarkets).2 = 1
      ∧ (2 ≤ exMarkets.length →
          (insert_market_data [] 7 exMarkets).2 ≠ (exMarkets.length : ℤ))) :=
  ⟨by with_unfolding_all decide, insert_market_data_spec [] 7 exMarkets (by with_unfolding_all decide)⟩

/-- C4: for a (descriptor, context) pair whose four numeric fields all
convert, the filter retains the row exactly when the parsed 24h volume is
strictly positive, and a retained row's quote-currency open interest is
exactly the parsed contract open interest times the parsed mark price. -/
theorem market_filter_spec (dex quote name : String) (c : Ctx) (mp oi dv f : ℚ)
    (hmp : coerceNum (getField c.markPx) = Except.ok mp)
    (hoi : coerceNum (getField c.openInterest) = Except.ok oi)
    (hdv : coerceNum (getField c.dayNtlVlm) = Except.ok dv)
    (hf : coerceNum (getField c.funding) = Except.ok f) :
    ((processRow dex quote name c).isSome ↔ 0 < dv)
    ∧ ∀ m, processRow dex quote name c = some m →
        m.openInterestUSD = oi * mp ∧ m.markPx = mp ∧ m.dayNtlVlm = dv := by
  unfold processRow
  rw [hmp, hoi, hdv, hf]
  constructor
  · by_cases h : 0 < dv <;> simp [h]
  · intro m hm
    by_cases h : 0 < dv
    · simp [h] at hm
      subst hm
      exact ⟨rfl, rfl, rfl⟩
    · simp [h] at hm

/-- Witness for `market_filter_spec`: the concrete context `ctxGood`
(mark price "2.5", open interest "4", volume "100", funding key absent). -/
theorem market_filter_spec_witness :
    (coerceNum (getField ctxGood.markPx) = Except.ok (5 / 2 : ℚ)
      ∧ coerceNum (getField ctxGood.openInterest) = Except.ok 4
      ∧ coerceNum (getField ctxGood.dayNtlVlm) = Except.ok 100
      ∧ coerceNum (getField ctxGood.funding) = Except.ok 0)
    ∧ (((processRow "xyz" "USDC" "AAA" ctxGood).isSome ↔ (0 : ℚ) < 100)
      ∧ ∀ m, processRow "xyz" "USDC" "AAA" ctxGood = some m →
          m.openInterestUSD = 4 * (5 / 2 : ℚ) ∧ m.markPx = 5 / 2 ∧ m.dayNtlVlm = 100) :=
  ⟨⟨by with_unfolding_all decide, by with_unfolding_all decide,
    by with_unfolding_all decide, by with_unfolding_all decide⟩,
   market_filter_spec "xyz" "USDC" "AAA" ctxGood (5 / 2) 4 100 0
     (by with_unfolding_all decide) (by with_unfolding_all decide)
     (by with_unfolding_all decide) (by with_unfolding_all decide)⟩

/-- C5 counterexample: the mark-price field of `ctxBadPx` is the truthy
non-numeric string `"abc"`; `float` raises on it, so the whole row is
discarded even though the parsed volume is `100 > 0` — the field is not
"treated as the value 0" as the claim states (that would retain the row
with mark price `0`). -/
theorem parse_default_counterexample :
    truthy (getField ctxBadPx.markPx) = true
    ∧ pyFloat (getField ctxBadPx.markPx) = Except.error ()
    ∧ coerceNum (getField ctxBadPx.dayNtlVlm) = Except.ok 100
    ∧ processRow "xyz" "USDC" "BBB" ctxBadPx = none := by
  with_unfolding_all decide

/-- C5 amended: a missing, empty or otherwise falsy field (Python `None`,
the number `0`) is treated as `0`; a truthy non-numeric field raises
`ValueError`/`TypeError`, which discards that single row while the rest of
the batch is still processed. -/
theorem parse_default_spec :
    coerceNum (getField none) = Except.ok 0
    ∧ coerceNum (PyVal.pstr "") = Except.ok 0
    ∧ coerceNum PyVal.pnone = Except.ok 0
    ∧ coerceNum (PyVal.pnum 0) = Except.ok 0
    ∧ (∀ (s : String), truthy (PyVal.pstr s) = true → parseFloat s = none →
        ∀ (dex quote name : String) (c : Ctx), c.markPx = some (PyVal.pstr s) →
          processRow dex quote name c = none)
    ∧ (∀ (dex quote : String) (d : Descriptor) (c : Ctx)
        (xs ys : List (Descriptor × Ctx)),
        processRow dex quote (descName d) c = none →
        marketsOfPairs dex quote (xs ++ (d, c) :: ys)
          = marketsOfPairs dex quote xs ++ marketsOfPairs dex quote ys) := by
  refine ⟨by with_unfolding_all decide, by with_unfolding_all decide,
    by with_unfolding_all decide, by with_unfolding_all decide, ?_, ?_⟩
  · intro s hs hparse dex quote name c hc
    unfold processRow
    rw [hc]
    have : coerceNum (getField (some (PyVal.pstr s))) = Except.error () := by
      simp [coerceNum, getField, hs, pyFloat, hparse]
    rw [this]
  · intro dex quote d c xs ys h
    unfold marketsOfPairs
    rw [List.filterMap_append, List.filterMap_cons]
    simp [h]

/-- Witness for `parse_default_spec`: the bad row `ctxBadPx` between two
good rows is discarded alone; the two good rows are still processed. -/
theorem parse_default_spec_witness :
    processRow "xyz" "USDC" (descName { name := some "BBB" }) ctxBadPx = none
    ∧ marketsOfPairs "xyz" "USDC"
        ([({ name := some "AAA" }, ctxGood)]
          ++ ({ name := some "BBB" }, ctxBadPx) :: [({ name := some "CCC" }, ctxNum)])
      = marketsOfPairs "xyz" "USDC" [({ name := some "AAA" }, ctxGood)]
        ++ marketsOfPairs "xyz" "USDC" [({ name := some "CCC" }, ctxNum)] :=
  ⟨by with_unfolding_all decide,
   parse_default_spec.2.2.2.2.2 "xyz" "USDC" { name := some "BBB" } ctxBadPx
     [({ name := some "AAA" }, ctxGood)] [({ name := some "CCC" }, ctxNum)]
     (by with_unfolding_all decide)⟩

/-- C8: `format_money` coincides with the formatter the specification
describes (divide at the `1,000`/`1,000,000`/`1,000,000,000` thresholds with
suffix `K`/`M`/`B`, two decimals, `$` first, plain below `1,000`), on the
spec's example inputs it produces the spec's example outputs, `None` gives
the sentinel, and formatting leaves all raw values of a response row
untouched. -/
theorem format_money_spec :
    (∀ a : Option ℚ, format_money a = moneySpecFormat a)
    ∧ format_money (some 999) = "$999.00"
    ∧ format_money (some 1500) = "$1.50K"
    ∧ format_money (some 2500000) = "$2.50M"
    ∧ format_money (some 3000000000) = "$3.00B"
    ∧ format_money none = "N/A"
    ∧ ∀ q : QueryRow,
        (toVaultJson q).deposit_amount = q.deposit_amount
        ∧ (toVaultJson q).deposit_amount_formatted = format_money q.deposit_amount
        ∧ (toVaultJson q).latest_apy = q.latest_apy
        ∧ (toVaultJson q).latest_apy_formatted = format_apy q.latest_apy
        ∧ (toVaultJson q).average_apy = q.average_apy
        ∧ (toVaultJson q).average_apy_formatted = format_apy q.average_apy := by
  refine ⟨?_, by with_unfolding_all decide, by with_unfolding_all decide,
    by with_unfolding_all decide, by with_unfolding_all decide, rfl, ?_⟩
  · intro a
    cases a <;> rfl
  · intro q
    exact ⟨rfl, rfl, rfl, rfl, rfl, rfl⟩

/-- C9: a failed or malformed fetch yields an empty contribution for that
source (also when the parallel arrays are misaligned), and the combined run
is a permutation of the per-source contributions taken in configuration
order — so every market of every succeeding source is still reported. -/
theorem fetch_isolation_spec :
    (∀ dex quote, get_hip3_markets dex quote FetchOutcome.failure = [])
    ∧ (∀ dex quote (u : List Descriptor) (cs : List Ctx), cs.length < u.length →
        get_hip3_markets dex quote (FetchOutcome.ok u cs) = [])
    ∧ (∀ (fetch : DexConfig → FetchOutcome) (configs : List DexConfig),
        (get_all_hip3_markets_combined fetch configs).Perm
          (configs.flatMap (fun c => get_hip3_markets c.name c.quote (fetch c))))
    ∧ (∀ (fetch : DexConfig → FetchOutcome) (configs : List DexConfig)
        (c' : DexConfig), c' ∈ configs →
        ∀ m ∈ get_hip3_markets c'.name c'.quote (fetch c'),
          m ∈ get_all_hip3_markets_combined fetch configs) := by
  refine ⟨fun _ _ => rfl, ?_, ?_, ?_⟩
  · intro dex quote u cs h
    show (if u.length ≤ cs.length then marketsOfPairs dex quote (u.zip cs) else []) = []
    rw [if_neg (Nat.not_le.mpr h)]
  · intro fetch configs
    exact List.perm_insertionSort _ _
  · intro fetch configs c' hc' m hm
    unfold get_all_hip3_markets_combined
    rw [List.mem_insertionSort]
    unfold collectMarkets
    rw [List.mem_flatMap]
    exact ⟨c', hc', hm⟩

/-- Witness for `fetch_isolation_spec`: under `exFetch` the `flx` source
fails and contributes nothing, a misaligned body contributes nothing, and
the market parsed from `ctxGood` of the succeeding `xyz` source is still in
the combined report. -/
theorem fetch_isolation_spec_witness :
    exFetch { name := "flx", quote := "USDH" } = FetchOutcome.failure
    ∧ get_hip3_markets "flx" "USDH" FetchOutcome.failure = []
    ∧ get_hip3_markets "xyz" "USDC" (FetchOutcome.ok [{ name := some "AAA" }] []) = []
    ∧ { dex := "xyz", quote := "USDC", market := "AAA", markPx := 5 / 2,
        dayNtlVlm := 100, openInterestUSD := 10, funding := 0 : Market }
        ∈ get_all_hip3_markets_combined exFetch dex_configs :=
  ⟨rfl,
   fetch_isolation_spec.1 "flx" "USDH",
   fetch_isolation_spec.2.1 "xyz" "USDC" [{ name := some "AAA" }] [] (by decide),
   fetch_isolation_spec.2.2.2 exFetch dex_configs { name := "xyz", quote := "USDC" }
     (by decide)
     { dex := "xyz", quote := "USDC", market := "AAA", markPx := 5 / 2,
       dayNtlVlm := 100, openInterestUSD := 10, funding := 0 }
     (by with_unfolding_all decide)⟩

theorem get_hip3_markets_dex (dex quote : String) (o : FetchOutcome) :
    ∀ m ∈ get_hip3_markets dex quote o, m.dex = dex := by
  intro m hm
  cases o with
  | failure => cases hm
  | ok u cs =>
    have hm' : m ∈ (if u.length ≤ cs.length then marketsOfPairs dex quote (u.zip cs) else []) := hm
    by_cases hl : u.length ≤ cs.length
    · rw [if_pos hl] at hm'
      unfold marketsOfPairs at hm'
      rw [List.mem_filterMap] at hm'
      obtain ⟨p, _, hp⟩ := hm'
      exact processRow_dex hp
    · rw [if_neg hl] at hm'
      cases hm'

theorem collectMarkets_dex_mem (fetch : DexConfig → FetchOutcome)
    (configs : List DexConfig) :
    ∀ m ∈ collectMarkets fetch configs, m.dex ∈ configs.map DexConfig.name := by
  intro m hm
  unfold collectMarkets at hm
  rw [List.mem_flatMap] at hm
  obtain ⟨c, hc, hmc⟩ := hm
  rw [List.mem_map]
  exact ⟨c, hc, (get_hip3_markets_dex c.name c.quote (fetch c) m hmc).symm⟩

theorem sum_map_add_pointwise {M : Type} [AddCommMonoid M] {α : Type}
    (f g : α → M) : ∀ l : List α,
      (l.map (fun x => f x + g x)).sum = (l.map f).sum + (l.map g).sum := by
  intro l
  induction l with
  | nil => simp
  | cons a t ih =>
    simp only [List.map_cons, List.sum_cons, ih]
    rw [add_add_add_comm]

theorem sum_map_single_hit {M : Type} [AddCommMonoid M] (c : M) (x : String) :
    ∀ names : List String, names.Nodup → x ∈ names →
      (names.map (fun d => if x == d then c else 0)).sum = c := by
  intro names
  induction names with
  | nil => intro _ h; cases h
  | cons d ds ih =>
    intro hnd hx
    rw [List.map_cons, List.sum_cons]
    by_cases hxd : x = d
    · subst hxd
      have hnotin : x ∉ ds := (List.nodup_cons.mp hnd).1
      have hz : (ds.map (fun e => if x == e then c else 0)).sum = 0 := by
        apply List.sum_eq_zero
        intro y hy
        rw [List.mem_map] at hy
        obtain ⟨e, he, rfl⟩ := hy
        have hne : x ≠ e := fun h => hnotin (h ▸ he)
        simp [hne]
      have hxx : (x == x) = true := beq_self_eq_true x
      rw [if_pos hxx, hz, add_zero]
    · have hx' : x ∈ ds := by
        rcases List.mem_cons.mp hx with h | h
        · exact absurd h hxd
        · exact h
      rw [ih (List.nodup_cons.mp hnd).2 hx']
      simp [hxd]

theorem sum_filter_dex_partition {M : Type} [AddCommMonoid M] (g : Market → M) :
    ∀ (ms : List Market) (names : List String), names.Nodup →
      (∀ m ∈ ms, m.dex ∈ names) →
      (names.map (fun d => ((ms.filter (fun m => m.dex == d)).map g).sum)).sum
        = (ms.map g).sum := by
  intro ms
  induction ms with
  | nil => intro names _ _; simp
  | cons m rest ih =>
    intro names hnd hmem
    have hmx : m.dex ∈ names := hmem m (List.mem_cons_self _ _)
    have hrest : ∀ m' ∈ rest, m'.dex ∈ names :=
      fun m' h => hmem m' (List.mem_cons_of_mem _ h)
    have hstep : names.map (fun d => (((m :: rest).filter (fun m' => m'.dex == d)).map g).sum)
        = names.map (fun d =>
            (if m.dex == d then g m else 0)
              + ((rest.filter (fun m' => m'.dex == d)).map g).sum) := by
      apply List.map_congr_left
      intro d _
      rw [List.filter_cons]
      by_cases hdx : m.dex = d
      · simp [hdx]
      · simp [hdx]
    rw [hstep, sum_map_add_pointwise, sum_map_single_hit (g m) m.dex names hnd hmx,
      ih names hnd hrest, List.map_cons, List.sum_cons]

theorem sum_map_one {α : Type} : ∀ l : List α, (l.map (fun _ => (1 : ℕ))).sum = l.length := by
  intro l
  induction l with
  | nil => rfl
  | cons a t ih => simp [ih, Nat.add_comm]

/-- C7: the combined report is sorted by 24h volume descending; every tie
class keeps its original per-source encounter order (stability); and for
distinct configured source names the per-source subtotals of volume, open
interest and market count, taken in configuration order, sum to the overall
totals. -/
theorem combined_report_spec (fetch : DexConfig → FetchOutcome)
    (configs : List DexConfig) (hnd : (configs.map DexConfig.name).Nodup) :
    (get_all_hip3_markets_combined fetch configs).Pairwise
      (fun a b => b.dayNtlVlm ≤ a.dayNtlVlm)
    ∧ (∀ v : ℚ,
        (get_all_hip3_markets_combined fetch configs).filter (fun m => m.dayNtlVlm == v)
          = (collectMarkets fetch configs).filter (fun m => m.dayNtlVlm == v))
    ∧ (configs.map (fun c =>
          total_volume (dexMarkets (get_all_hip3_markets_combined fetch configs) c.name))).sum
        = total_volume (get_all_hip3_markets_combined fetch configs)
    ∧ (configs.map (fun c =>
          total_oi (dexMarkets (get_all_hip3_markets_combined fetch configs) c.name))).sum
        = total_oi (get_all_hip3_markets_combined fetch configs)
    ∧ (configs.map (fun c =>
          (dexMarkets (get_all_hip3_markets_combined fetch configs) c.name).length)).sum
        = (get_all_hip3_markets_combined fetch configs).length := by
  have hperm : (get_all_hip3_markets_combined fetch configs).Perm
      (collectMarkets fetch configs) := List.perm_insertionSort _ _
  have hmem : ∀ m ∈ get_all_hip3_markets_combined fetch configs,
      m.dex ∈ configs.map DexConfig.name := fun m hm =>
    collectMarkets_dex_mem fetch configs m (hperm.mem_iff.mp hm)
  refine ⟨?_, ?_, ?_, ?_, ?_⟩
  · haveI : IsTotal Market (fun a b => b.dayNtlVlm ≤ a.dayNtlVlm) :=
      ⟨fun a b => le_total b.dayNtlVlm a.dayNtlVlm⟩
    haveI : IsTrans Market (fun a b => b.dayNtlVlm ≤ a.dayNtlVlm) :=
      ⟨fun _ _ _ h1 h2 => le_trans h2 h1⟩
    exact List.sorted_insertionSort _ _
  · intro v
    have hpw : ((collectMarkets fetch configs).filter
        (fun m => m.dayNtlVlm == v)).Pairwise (fun a b => b.dayNtlVlm ≤ a.dayNtlVlm) := by
      apply List.pairwise_of_forall_mem_list
      intro a ha b hb
      rw [List.mem_filter] at ha hb
      have hav : a.dayNtlVlm = v := by simpa using ha.2
      have hbv : b.dayNtlVlm = v := by simpa using hb.2
      rw [hav, hbv]
    have hsub : List.Sublist
        ((collectMarkets fetch configs).filter (fun m => m.dayNtlVlm == v))
        (get_all_hip3_markets_combined fetch configs) :=
      List.sublist_insertionSort hpw (List.filter_sublist _)
    have hidem : ((collectMarkets fetch configs).filter
        (fun m => m.dayNtlVlm == v)).filter (fun m => m.dayNtlVlm == v)
        = (collectMarkets fetch configs).filter (fun m => m.dayNtlVlm == v) :=
      List.filter_eq_self.mpr (fun a ha => (List.mem_filter.mp ha).2)
    have hsub2 : List.Sublist
        ((collectMarkets fetch configs).filter (fun m => m.dayNtlVlm == v))
        ((get_all_hip3_markets_combined fetch configs).filter (fun m => m.dayNtlVlm == v)) := by
      have h3 := hsub.filter (fun m => m.dayNtlVlm == v)
      rwa [hidem] at h3
    have hlen : ((get_all_hip3_markets_combined fetch configs).filter
        (fun m => m.dayNtlVlm == v)).length
        = ((collectMarkets fetch configs).filter (fun m => m.dayNtlVlm == v)).length :=
      (hperm.filter _).length_eq
    exact (hsub2.eq_of_length hlen.symm).symm
  · have h1 := sum_filter_dex_partition Market.dayNtlVlm
      (get_all_hip3_markets_combined fetch configs) (configs.map DexConfig.name) hnd hmem
    rw [List.map_map] at h1
    exact h1
  · have h1 := sum_filter_dex_partition Market.openInterestUSD
      (get_all_hip3_markets_combined fetch configs) (configs.map DexConfig.name) hnd hmem
    rw [List.map_map] at h1
    exact h1
  · have h1 := sum_filter_dex_partition (fun _ => (1 : ℕ))
      (get_all_hip3_markets_combined fetch configs) (configs.map DexConfig.name) hnd hmem
    simp only [sum_map_one] at h1
    rw [List.map_map] at h1
    exact h1

/-- Witness for `combined_report_spec`: the three configured sources have
distinct names, and with two sources answering under `exFetch2` the
per-source volume subtotals sum to the overall total. -/
theorem combined_report_spec_witness :
    (dex_configs.map DexConfig.name).Nodup
    ∧ (dex_configs.map (fun c =>
        total_volume (dexMarkets (get_all_hip3_markets_combined exFetch2 dex_configs) c.name))).sum
      = total_volume (get_all_hip3_markets_combined exFetch2 dex_configs) :=
  ⟨by decide, (combined_report_spec exFetch2 dex_configs (by decide)).2.2.1⟩

theorem listMax_eq_none : ∀ {l : List ℕ}, listMax l = none → l = [] := by
  intro l h
  cases l with
  | nil => rfl
  | cons x xs =>
    unfold listMax at h
    cases hx : listMax xs with
    | none => rw [hx] at h; cases h
    | some k => rw [hx] at h; cases h

theorem listMax_mem : ∀ {l : List ℕ} {m : ℕ}, listMax l = some m → m ∈ l := by
  intro l
  induction l with
  | nil => intro m h; cases h
  | cons x xs ih =>
    intro m h
    unfold listMax at h
    cases hx : listMax xs with
    | none =>
      rw [hx] at h
      injection h with h'
      subst h'
      exact List.mem_cons_self _ _
    | some k =>
      rw [hx] at h
      injection h with h'
      subst h'
      rcases max_choice x k with hm | hm
      · rw [hm]; exact List.mem_cons_self _ _
      · rw [hm]; exact List.mem_cons_of_mem _ (ih hx)

theorem listMax_ge : ∀ {l : List ℕ} {m : ℕ}, listMax l = some m → ∀ x ∈ l, x ≤ m := by
  intro l
  induction l with
  | nil => intro m h; cases h
  | cons y xs ih =>
    intro m h x hx
    unfold listMax at h
    cases hys : listMax xs with
    | none =>
      rw [hys] at h
      injection h with h'
      subst h'
      have hxs : xs = [] := listMax_eq_none hys
      subst hxs
      rcases List.mem_cons.mp hx with rfl | hxx
      · exact Nat.le_refl _
      · cases hxx
    | some k =>
      rw [hys] at h
      injection h with h'
      subst h'
      rcases List.mem_cons.mp hx with rfl | hxx
      · exact Nat.le_max_left _ _
      · exact le_trans (ih hys x hxx) (Nat.le_max_right y k)

theorem sameVault_iff {p v : String} {r : VaultRow} :
    sameVault p v r = true ↔ r.platform = p ∧ r.vault_name = v := by
  simp [sameVault]

theorem mem_windowRows {db : List VaultRow} {c : Option ℤ} {r : VaultRow} :
    r ∈ windowRows db c ↔ r ∈ db ∧ inWindow c r = true := by
  simp [windowRows, List.mem_filter]

theorem groupMaxId_spec {db : List VaultRow} {c : Option ℤ} {p v : String} {i : ℕ}
    (h : groupMaxId db c p v = some i) :
    (∃ r ∈ db, inWindow c r = true ∧ r.platform = p ∧ r.vault_name = v ∧ r.id = i)
    ∧ ∀ r' ∈ db, inWindow c r' = true → r'.platform = p → r'.vault_name = v →
        r'.id ≤ i := by
  unfold groupMaxId at h
  constructor
  · have hm := listMax_mem h
    rw [List.mem_map] at hm
    obtain ⟨r, hr, hid⟩ := hm
    rw [List.mem_filter] at hr
    obtain ⟨hrw, hsv⟩ := hr
    rw [mem_windowRows] at hrw
    rw [sameVault_iff] at hsv
    exact ⟨r, hrw.1, hrw.2, hsv.1, hsv.2, hid⟩
  · intro r' hr' hw hp hv
    apply listMax_ge h
    rw [List.mem_map]
    refine ⟨r', ?_, rfl⟩
    rw [List.mem_filter]
    constructor
    · rw [mem_windowRows]; exact ⟨hr', hw⟩
    · rw [sameVault_iff]; exact ⟨hp, hv⟩

theorem latest_snapshots_spec (db : List VaultRow) (c : Option ℤ)
    (hid : (db.map VaultRow.id).Nodup) :
    ∀ r ∈ latest_snapshots db c,
      r ∈ db ∧ inWindow c r = true
      ∧ groupMaxId db c r.platform r.vault_name = some r.id := by
  intro r hr
  unfold latest_snapshots at hr
  rw [List.mem_filter] at hr
  obtain ⟨hrdb, hany⟩ := hr
  rw [List.any_eq_true] at hany
  obtain ⟨w, hw, hbeq⟩ := hany
  have hgm : groupMaxId db c w.platform w.vault_name = some r.id := by
    simpa using hbeq
  obtain ⟨⟨r0, hr0db, hr0w, hr0p, hr0v, hr0id⟩, _⟩ := groupMaxId_spec hgm
  have hrr0 : r = r0 :=
    List.inj_on_of_nodup_map hid hrdb hr0db hr0id.symm
  refine ⟨hrdb, ?_, ?_⟩
  · rw [hrr0]; exact hr0w
  · rw [hrr0, hr0p, hr0v, hr0id]
    rw [← hrr0] at hr0id
    exact hgm

theorem latest_snapshots_key_nodup (db : List VaultRow) (c : Option ℤ)
    (hid : (db.map VaultRow.id).Nodup) :
    (latest_snapshots db c).Pairwise
      (fun a b => ¬(a.platform = b.platform ∧ a.vault_name = b.vault_name)) := by
  have hdb : db.Pairwise (fun a b => a.id ≠ b.id) := List.pairwise_map.mp hid
  have hlat : (latest_snapshots db c).Pairwise (fun a b => a.id ≠ b.id) :=
    List.Pairwise.sublist (List.filter_sublist _) hdb
  apply List.Pairwise.imp_of_mem ?_ hlat
  intro a b ha hb hne hkey
  obtain ⟨_, _, hga⟩ := latest_snapshots_spec db c hid a ha
  obtain ⟨_, _, hgb⟩ := latest_snapshots_spec db c hid b hb
  rw [← hkey.1, ← hkey.2] at hgb
  rw [hga] at hgb
  exact hne (Option.some.inj hgb)

theorem mem_query_vaults {db : List VaultRow} {ps : QueryParams} {q : QueryRow} :
    q ∈ query_vaults db ps ↔
      (∃ r ∈ latest_snapshots db ps.cutoff, joinRow db ps.cutoff r = q)
      ∧ keepRow ps q = true := by
  unfold query_vaults
  rw [List.mem_insertionSort, List.mem_filter, List.mem_map]

/-- C1: every returned row of `/api/query` comes from a stored in-window row
of its vault whose surrogate id is maximal among the in-window rows of that
vault; distinct returned rows have distinct vault identities; and a vault
with no in-window row never appears. -/
theorem query_latest_spec (db : List VaultRow) (ps : QueryParams)
    (hid : (db.map VaultRow.id).Nodup) :
    (∀ q ∈ query_vaults db ps, ∃ r ∈ db,
        inWindow ps.cutoff r = true
        ∧ r.platform = q.platform ∧ r.vault_name = q.vault_name
        ∧ q.latest_apy = r.apy_percentage ∧ q.deposit_amount = r.deposit_amount
        ∧ q.vault_type = r.vault_type ∧ q.timestamp = r.timestamp
        ∧ ∀ r' ∈ db, inWindow ps.cutoff r' = true → r'.platform = r.platform →
            r'.vault_name = r.vault_name → r'.id ≤ r.id)
    ∧ (query_vaults db ps).Pairwise
        (fun a b => ¬(a.platform = b.platform ∧ a.vault_name = b.vault_name))
    ∧ ∀ p v, (∀ r ∈ db, r.platform = p → r.vault_name = v →
          inWindow ps.cutoff r = false) →
        ∀ q ∈ query_vaults db ps, ¬(q.platform = p ∧ q.vault_name = v) := by
  refine ⟨?_, ?_, ?_⟩
  · intro q hq
    obtain ⟨⟨r, hr, hjoin⟩, _⟩ := mem_query_vaults.mp hq
    obtain ⟨hrdb, hrw, hgm⟩ := latest_snapshots_spec db ps.cutoff hid r hr
    obtain ⟨_, hmax⟩ := groupMaxId_spec hgm
    subst hjoin
    exact ⟨r, hrdb, hrw, rfl, rfl, rfl, rfl, rfl, rfl, hmax⟩
  · have h1 := latest_snapshots_key_nodup db ps.cutoff hid
    have h2 : ((latest_snapshots db ps.cutoff).map (joinRow db ps.cutoff)).Pairwise
        (fun a b => ¬(a.platform = b.platform ∧ a.vault_name = b.vault_name)) := by
      rw [List.pairwise_map]
      exact h1
    have h3 : (((latest_snapshots db ps.cutoff).map (joinRow db ps.cutoff)).filter
        (keepRow ps)).Pairwise
        (fun a b => ¬(a.platform = b.platform ∧ a.vault_name = b.vault_name)) :=
      List.Pairwise.sublist (List.filter_sublist _) h2
    have hperm := List.perm_insertionSort
      (fun a b => rowLeB ps.sort_by ps.sort_order a b = true)
      (((latest_snapshots db ps.cutoff).map (joinRow db ps.cutoff)).filter (keepRow ps))
    exact (hperm.pairwise_iff
      (fun {x y} h hk => h ⟨hk.1.symm, hk.2.symm⟩)).mpr h3
  · intro p v habs q hq hkey
    obtain ⟨⟨r, hr, hjoin⟩, _⟩ := mem_query_vaults.mp hq
    obtain ⟨hrdb, hrw, _⟩ := latest_snapshots_spec db ps.cutoff hid r hr
    subst hjoin
    have hf := habs r hrdb hkey.1 hkey.2
    rw [hf] at hrw
    exact absurd hrw (by decide)

/-- Witness for `query_latest_spec` on the concrete store `exDb1`: ids are
distinct, the row of vault `(B, v2)` is returned, and it is backed by an
in-window stored row with the maximal id of that vault. -/
theorem query_latest_spec_witness :
    (exDb1.map VaultRow.id).Nodup
    ∧ exQB ∈ query_vaults exDb1 exPs1
    ∧ ∃ r ∈ exDb1,
        inWindow exPs1.cutoff r = true
        ∧ r.platform = exQB.platform ∧ r.vault_name = exQB.vault_name
        ∧ exQB.latest_apy = r.apy_percentage ∧ exQB.deposit_amount = r.deposit_amount
        ∧ exQB.vault_type = r.vault_type ∧ exQB.timestamp = r.timestamp
        ∧ ∀ r' ∈ exDb1, inWindow exPs1.cutoff r' = true → r'.platform = r.platform →
            r'.vault_name = r.vault_name → r'.id ≤ r.id :=
  ⟨by decide, by with_unfolding_all decide,
   (query_latest_spec exDb1 exPs1 (by decide)).1 exQB (by with_unfolding_all decide)⟩

/-- C2: for every returned row, `average_apy` is SQL `AVG` over exactly the
non-`NULL` `apy_percentage` values of the in-window rows of that vault —
the same window as the latest snapshot — and it is `NULL` (not `0`) when
that sample list is empty. -/
theorem query_average_spec (db : List VaultRow) (ps : QueryParams) :
    ∀ q ∈ query_vaults db ps,
      q.average_apy = average_apy db ps.cutoff q.platform q.vault_name
      ∧ (vaultSamples db ps.cutoff q.platform q.vault_name = [] →
          q.average_apy = none)
      ∧ (vaultSamples db ps.cutoff q.platform q.vault_name ≠ [] →
          q.average_apy = some
            ((vaultSamples db ps.cutoff q.platform q.vault_name).sum
              / ((vaultSamples db ps.cutoff q.platform q.vault_name).length : ℚ))) := by
  intro q hq
  obtain ⟨⟨r, _, hjoin⟩, _⟩ := mem_query_vaults.mp hq
  subst hjoin
  refine ⟨rfl, ?_, ?_⟩
  · intro hemp
    have h : vaultSamples db ps.cutoff r.platform r.vault_name = [] := hemp
    show average_apy db ps.cutoff r.platform r.vault_name = none
    simp [average_apy, h]
  · intro hne
    have h : vaultSamples db ps.cutoff r.platform r.vault_name ≠ [] := hne
    have hb : (vaultSamples db ps.cutoff r.platform r.vault_name).isEmpty = false := by
      cases hv : vaultSamples db ps.cutoff r.platform r.vault_name with
      | nil => exact absurd hv h
      | cons a t => rfl
    show average_apy db ps.cutoff r.platform r.vault_name = some
      ((vaultSamples db ps.cutoff r.platform r.vault_name).sum
        / ((vaultSamples db ps.cutoff r.platform r.vault_name).length : ℚ))
    simp [average_apy, hb]

/-- Witness for `query_average_spec`: the returned row of vault `(A, v1)` of
`exDb1` has window samples `[7]` (the `NULL` APY of the latest row is not a
sample; the out-of-window `5` is excluded) and `average_apy = 7`. -/
theorem query_average_spec_witness :
    exQA ∈ query_vaults exDb1 exPs1
    ∧ vaultSamples exDb1 exPs1.cutoff exQA.platform exQA.vault_name ≠ []
    ∧ exQA.average_apy = some
        ((vaultSamples exDb1 exPs1.cutoff exQA.platform exQA.vault_name).sum
          / ((vaultSamples exDb1 exPs1.cutoff exQA.platform exQA.vault_name).length : ℚ)) :=
  ⟨by with_unfolding_all decide, by with_unfolding_all decide,
   (query_average_spec exDb1 exPs1 exQA (by with_unfolding_all decide)).2.2
     (by with_unfolding_all decide)⟩

theorem optQLe_none_right {x : Option ℚ} (h : optQLe x none = true) : x = none := by
  cases x with
  | none => rfl
  | some a => cases h

theorem optQLe_total (x y : Option ℚ) : optQLe x y = true ∨ optQLe y x = true := by
  cases x with
  | none => exact Or.inl rfl
  | some qa =>
    cases y with
    | none => exact Or.inr rfl
    | some qb =>
      rcases le_total qa qb with h | h
      · exact Or.inl (by simp [optQLe, h])
      · exact Or.inr (by simp [optQLe, h])

theorem optQLe_trans {x y z : Option ℚ} (hxy : optQLe x y = true)
    (hyz : optQLe y z = true) : optQLe x z = true := by
  cases x with
  | none => rfl
  | some qa =>
    cases y with
    | none => cases hxy
    | some qb =>
      cases z with
      | none => cases hyz
      | some qc =>
        simp only [optQLe, decide_eq_true_eq] at hxy hyz ⊢
        exact le_trans hxy hyz

theorem rowLeB_total (sb : SortBy) (so : SortOrder) (a b : QueryRow) :
    rowLeB sb so a b = true ∨ rowLeB sb so b a = true := by
  cases sb with
  | name =>
    rcases le_total a.vault_name b.vault_name with h | h
    · exact Or.inl (by simp [rowLeB, h])
    · exact Or.inr (by simp [rowLeB, h])
  | apy => cases so with
    | asc => exact optQLe_total _ _
    | desc => exact optQLe_total _ _
  | avg_apy => cases so with
    | asc => exact optQLe_total _ _
    | desc => exact optQLe_total _ _
  | deposits => cases so with
    | asc => exact optQLe_total _ _
    | desc => exact optQLe_total _ _

theorem rowLeB_trans (sb : SortBy) (so : SortOrder) {a b c : QueryRow}
    (h1 : rowLeB sb so a b = true) (h2 : rowLeB sb so b c = true) :
    rowLeB sb so a c = true := by
  cases sb with
  | name =>
    simp only [rowLeB, decide_eq_true_eq] at h1 h2 ⊢
    exact le_trans h1 h2
  | apy => cases so with
    | asc => exact optQLe_trans h1 h2
    | desc => exact optQLe_trans h2 h1
  | avg_apy => cases so with
    | asc => exact optQLe_trans h1 h2
    | desc => exact optQLe_trans h2 h1
  | deposits => cases so with
    | asc => exact optQLe_trans h1 h2
    | desc => exact optQLe_trans h2 h1

theorem query_vaults_sorted (db : List VaultRow) (ps : QueryParams) :
    (query_vaults db ps).Pairwise
      (fun a b => rowLeB ps.sort_by ps.sort_order a b = true) := by
  unfold query_vaults
  haveI : IsTotal QueryRow (fun a b => rowLeB ps.sort_by ps.sort_order a b = true) :=
    ⟨fun a b => rowLeB_total ps.sort_by ps.sort_order a b⟩
  haveI : IsTrans QueryRow (fun a b => rowLeB ps.sort_by ps.sort_order a b = true) :=
    ⟨fun _ _ _ h1 h2 => rowLeB_trans ps.sort_by ps.sort_order h1 h2⟩
  exact List.sorted_insertionSort _ _

/-- C3 counterexample: in `exDb3` sorted by latest APY ascending, the row
with unknown (`NULL`) APY comes first, not last — SQLite treats `NULL` as
smaller than every value, and the source adds no `NULLS LAST` clause — so
the claim that null keys sort last regardless of direction is false. -/
theorem query_sort_nulls_counterexample :
    ¬ ((query_vaults exDb3 exPs3).Pairwise
        (fun a b => a.latest_apy = none → b.latest_apy = none)) := by
  with_unfolding_all decide

/-- C3 amended: for the numeric sort keys, rows with unknown (`NULL`) keys
sort first under ascending order and last under descending order; the
`name` sort ignores the direction and always orders ascending by
`vault_name`. -/
theorem query_sort_nulls_spec (db : List VaultRow) (ps : QueryParams) :
    (ps.sort_by ≠ SortBy.name → ps.sort_order = SortOrder.asc →
      (query_vaults db ps).Pairwise
        (fun a b => numKey ps.sort_by b = none → numKey ps.sort_by a = none))
    ∧ (ps.sort_by ≠ SortBy.name → ps.sort_order = SortOrder.desc →
      (query_vaults db ps).Pairwise
        (fun a b => numKey ps.sort_by a = none → numKey ps.sort_by b = none))
    ∧ (ps.sort_by = SortBy.name →
      (query_vaults db ps).Pairwise (fun a b => a.vault_name ≤ b.vault_name)) := by
  have hs := query_vaults_sorted db ps
  refine ⟨?_, ?_, ?_⟩
  · intro hname hasc
    rw [hasc] at hs
    refine List.Pairwise.imp ?_ hs
    intro a b hab hbn
    cases hsb : ps.sort_by with
    | name => exact absurd hsb hname
    | apy =>
      rw [hsb] at hab hbn
      have hab' : optQLe (numKey SortBy.apy a) (numKey SortBy.apy b) = true := hab
      rw [hbn] at hab'
      exact optQLe_none_right hab'
    | avg_apy =>
      rw [hsb] at hab hbn
      have hab' : optQLe (numKey SortBy.avg_apy a) (numKey SortBy.avg_apy b) = true := hab
      rw [hbn] at hab'
      exact optQLe_none_right hab'
    | deposits =>
      rw [hsb] at hab hbn
      have hab' : optQLe (numKey SortBy.deposits a) (numKey SortBy.deposits b) = true := hab
      rw [hbn] at hab'
      exact optQLe_none_right hab'
  · intro hname hdesc
    rw [hdesc] at hs
    refine List.Pairwise.imp ?_ hs
    intro a b hab han
    cases hsb : ps.sort_by with
    | name => exact absurd hsb hname
    | apy =>
      rw [hsb] at hab han
      have hab' : optQLe (numKey SortBy.apy b) (numKey SortBy.apy a) = true := hab
      rw [han] at hab'
      exact optQLe_none_right hab'
    | avg_apy =>
      rw [hsb] at hab han
      have hab' : optQLe (numKey SortBy.avg_apy b) (numKey SortBy.avg_apy a) = true := hab
      rw [han] at hab'
      exact optQLe_none_right hab'
    | deposits =>
      rw [hsb] at hab han
      have hab' : optQLe (numKey SortBy.deposits b) (numKey SortBy.deposits a) = true := hab
      rw [han] at hab'
      exact optQLe_none_right hab'
  · intro hname
    rw [hname] at hs
    refine List.Pairwise.imp ?_ hs
    intro a b hab
    exact of_decide_eq_true hab

/-- Witness for `query_sort_nulls_spec`: ascending APY sort of `exDb3` puts
the unknown-APY row first. -/
theorem query_sort_nulls_spec_witness :
    exPs3.sort_by ≠ SortBy.name
    ∧ exPs3.sort_order = SortOrder.asc
    ∧ (query_vaults exDb3 exPs3).Pairwise
        (fun a b => numKey exPs3.sort_by b = none → numKey exPs3.sort_by a = none) :=
  ⟨by decide, rfl, (query_sort_nulls_spec exDb3 exPs3).1 (by decide) rfl⟩

theorem truthyVals_sum_eq (f : StatsRow → Option ℚ) :
    ∀ l : List StatsRow, (truthyVals f l).sum = (knownVals f l).sum := by
  intro l
  induction l with
  | nil => rfl
  | cons r t ih =>
    unfold truthyVals knownVals at ih ⊢
    rw [List.filterMap_cons, List.filterMap_cons]
    cases hf : f r with
    | none => simpa using ih
    | some q =>
      by_cases hq : q = 0
      · subst hq
        simpa using ih
      · simp [hq, ih]

/-- C6 counterexample: platform `A` of `exDb6` has two returned rows with
known latest APYs `0` and `4`; the per-platform aggregate excludes the
known `0` through Python truthiness and reports `4`, while the mean over
the known member values is `2` — so the claim that group aggregates range
over exactly the known (non-null) values is false. -/
theorem stats_groups_counterexample :
    ((statsResults exDb6 exPs6).filter
        (fun r => r.platform == "A")).map StatsRow.latest_apy = [some 0, some 4]
    ∧ (platformStats (statsResults exDb6 exPs6) "A").avg_latest_apy = 4
    ∧ meanOr0 (knownVals StatsRow.latest_apy
        ((statsResults exDb6 exPs6).filter (fun r => r.platform == "A"))) = 2 := by
  with_unfolding_all decide

/-- C6 amended: the overall aggregates range over the known (non-null)
values — a known `0` included — and an empty known set yields `0`; the
per-platform and per-type aggregates instead range over the truthy values
(non-null and nonzero), also yielding `0` on an empty set. Their TVL sums
coincide with the sums over known values, since dropping zeros does not
change a sum, but their averages do not. -/
theorem stats_aggregates_spec (db : List VaultRow) (ps : StatsParams) :
    ((overallStats (statsResults db ps)).avg_latest_apy
        = meanOr0 (knownVals StatsRow.latest_apy (statsResults db ps))
      ∧ (overallStats (statsResults db ps)).avg_period_apy
        = meanOr0 (knownVals StatsRow.average_apy (statsResults db ps))
      ∧ (overallStats (statsResults db ps)).avg_tvl
        = meanOr0 (knownVals StatsRow.deposit_amount (statsResults db ps))
      ∧ (overallStats (statsResults db ps)).total_tvl
        = (knownVals StatsRow.deposit_amount (statsResults db ps)).sum)
    ∧ (knownVals StatsRow.latest_apy (statsResults db ps) = [] →
        (overallStats (statsResults db ps)).avg_latest_apy = 0
        ∧ (overallStats (statsResults db ps)).max_apy = 0
        ∧ (overallStats (statsResults db ps)).min_apy = 0)
    ∧ (∀ p : String,
        (platformStats (statsResults db ps) p).avg_latest_apy
          = meanOr0 (truthyVals StatsRow.latest_apy
              ((statsResults db ps).filter (fun r => r.platform == p)))
        ∧ (platformStats (statsResults db ps) p).total_tvl
          = (knownVals StatsRow.deposit_amount
              ((statsResults db ps).filter (fun r => r.platform == p))).sum
        ∧ (truthyVals StatsRow.latest_apy
              ((statsResults db ps).filter (fun r => r.platform == p)) = [] →
            (platformStats (statsResults db ps) p).avg_latest_apy = 0))
    ∧ (∀ t : String,
        (typeStats (statsResults db ps) t).avg_latest_apy
          = meanOr0 (truthyVals StatsRow.latest_apy
              ((statsResults db ps).filter (fun r => r.vault_type == t)))
        ∧ (typeStats (statsResults db ps) t).total_tvl
          = (knownVals StatsRow.deposit_amount
              ((statsResults db ps).filter (fun r => r.vault_type == t))).sum) := by
  refine ⟨⟨rfl, rfl, rfl, rfl⟩, ?_, ?_, ?_⟩
  · intro h
    refine ⟨?_, ?_, ?_⟩
    · show meanOr0 (knownVals StatsRow.latest_apy (statsResults db ps)) = 0
      rw [h]
      rfl
    · show maxOr0 (knownVals StatsRow.latest_apy (statsResults db ps)) = 0
      rw [h]
      rfl
    · show minOr0 (knownVals StatsRow.latest_apy (statsResults db ps)) = 0
      rw [h]
      rfl
  · intro p
    refine ⟨rfl, ?_, ?_⟩
    · exact truthyVals_sum_eq StatsRow.deposit_amount _
    · intro h
      show meanOr0 (truthyVals StatsRow.latest_apy
        ((statsResults db ps).filter (fun r => r.platform == p))) = 0
      rw [h]
      rfl
  · intro t
    exact ⟨rfl, truthyVals_sum_eq StatsRow.deposit_amount _⟩

/-- Witness for `stats_aggregates_spec` on `exDb6`: the platform `A`
aggregate equals the truthy-value mean, and an absent platform `Z` yields
the defined `0`. -/
theorem stats_aggregates_spec_witness :
    (platformStats (statsResults exDb6 exPs6) "A").avg_latest_apy
      = meanOr0 (truthyVals StatsRow.latest_apy
          ((statsResults exDb6 exPs6).filter (fun r => r.platform == "A")))
    ∧ truthyVals StatsRow.latest_apy
        ((statsResults exDb6 exPs6).filter (fun r => r.platform == "Z")) = []
    ∧ (platformStats (statsResults exDb6 exPs6) "Z").avg_latest_apy = 0 :=
  ⟨((stats_aggregates_spec exDb6 exPs6).2.2.1 "A").1,
   by with_unfolding_all decide,
   ((stats_aggregates_spec exDb6 exPs6).2.2.1 "Z").2.2
     (by with_unfolding_all decide)⟩
